import Mathlib

/-!
Verification development for the connection-lifecycle and I/O-pump subsystem of
the reviewed Bevy WebSocket demo (`src/main.rs`).  The embedding models the
native (non-wasm) code path of the program: the `WebSocketClient` component
wrapping a non-blocking `tungstenite` socket, the `WebSocketConnectionSetupTask`
component wrapping the background connect task, and the four `Update` systems
`setup_connection`, `handle_tasks`, `send_info` and `recv_info`.  Mutations
performed through `Commands` (spawning the slot entity, installing the client
and removing the task component from the async task's `CommandQueue`) are
deferred in Bevy until the schedule's sync point, so the embedding applies them
at the end of a tick, after the pump systems ran against the pre-tick state.
-/

namespace WsDemo

/-- Opaque binary wire payload: the bytes of one WebSocket message. -/
abbrev Msg := List Nat

/-- A transform record captured from the scene; treated as opaque data. -/
abbrev Transform := Nat

/-- Embedding of `bincode::serialize(transforms)`: a length-prefixed binary
encoding of the captured transform records. -/
def serializeTransforms (ts : List Transform) : Msg :=
  ts.length :: ts

/-- Embedding of `std::io::ErrorKind` as far as the program inspects it:
`WouldBlock` versus every other kind. -/
inductive IoErrKind
  | wouldBlock
  | otherErr (code : Nat)
  deriving DecidableEq

/-- Embedding of `tungstenite::Error`: an IO error carrying its kind, or any
other transport/protocol error. -/
inductive WsError
  | ioErr (k : IoErrKind)
  | protocolErr (code : Nat)
  deriving DecidableEq

/-- One outcome the non-blocking socket will yield to a `read` call: either a
complete buffered message or a transport fault.  An exhausted list means the
socket has nothing available and reports would-block. -/
inductive InboundEvent
  | msg (m : Msg)
  | fault (e : WsError)
  deriving DecidableEq

/-- Embedding of the native `WebSocket<MaybeTlsStream<TcpStream>>` held inside
the `WebSocketClient` component: the buffered inbound traffic, a script of the
outcomes the transport gives to successive `send` calls (`none` is success, an
exhausted script also means success), and the successfully written payloads. -/
structure Channel where
  inbound : List InboundEvent
  sendScript : List (Option WsError)
  outbox : List Msg
  deriving DecidableEq

/-- Result of `WebSocket::read` on the non-blocking socket. -/
inductive ReadResult
  | ok (m : Msg)
  | err (e : WsError)
  deriving DecidableEq

/-- Embedding of `WebSocket::read`: one call yields at most one complete
message; with nothing buffered the non-blocking socket reports
`Err(Io(WouldBlock))`. -/
def Channel.read : Channel → ReadResult × Channel
  | ⟨[], sr, ob⟩ => (.err (.ioErr .wouldBlock), ⟨[], sr, ob⟩)
  | ⟨.msg m :: rest, sr, ob⟩ => (.ok m, ⟨rest, sr, ob⟩)
  | ⟨.fault e :: rest, sr, ob⟩ => (.err e, ⟨rest, sr, ob⟩)

/-- Embedding of `WebSocket::send(Message::Binary(msg))`: the next scripted
outcome decides success; a successful send records the payload. -/
def Channel.send : Channel → Msg → Option WsError × Channel
  | ⟨ib, [], ob⟩, m => (none, ⟨ib, [], ob ++ [m]⟩)
  | ⟨ib, none :: rest, ob⟩, m => (none, ⟨ib, rest, ob ++ [m]⟩)
  | ⟨ib, some e :: rest, ob⟩, _m => (some e, ⟨ib, rest, ob⟩)

/-- Embedding of the `ConnectionSetupError` enum of `main.rs`. -/
inductive ConnectionSetupError
  | ioErr (k : IoErrKind)
  | webSocketErr (e : WsError)
  deriving DecidableEq

/-- One log line the program emits (the `info!` and `warn!` calls of
`main.rs`), identified by call site. -/
inductive LogEntry
  | settingUp
  | connectionFailed (e : ConnectionSetupError)
  | timeToSend
  | sendingData (ts : List Transform)
  | dataSent
  | sendWarn (e : WsError)
  | receivedMsg (m : Msg)
  | recvWarn (e : WsError)
  deriving DecidableEq

/-- Embedding of the `match client.0.0.send(..)` arms in `send_info`:
`Ok` logs success, `Err(Io(e))` with `e.kind() == WouldBlock` is silently
ignored, any other error is logged as a warning. -/
def handleSendResult : Option WsError → List LogEntry
  | none => [.dataSent]
  | some (.ioErr .wouldBlock) => []
  | some e => [.sendWarn e]

/-- Per-channel body of `send_info`: log the captured transforms, serialize
them with bincode and send the binary message, then handle the result. -/
def sendClient (data : List Transform) (c : Channel) : Channel × List LogEntry :=
  let p := c.send (serializeTransforms data)
  (p.2, .sendingData data :: handleSendResult p.1)

/-- Per-channel body of `recv_info` on the native path: a single
`client.0.0.read()` call with its three match arms (`Ok`, would-block ignored,
other errors warned). -/
def recvClientStep (c : Channel) : Channel × List LogEntry :=
  match c.read with
  | (.ok m, c2) => (c2, [.receivedMsg m])
  | (.err (.ioErr .wouldBlock), c2) => (c2, [])
  | (.err e, c2) => (c2, [.recvWarn e])

/-- Iterated ticks of the native per-channel receive step: the program performs
one `read` call per channel per `recv_info` run, so draining a buffer takes one
tick per message. -/
def recvTicks : Channel → Nat → Channel × List LogEntry
  | c, 0 => (c, [])
  | c, n + 1 =>
    let p := recvClientStep c
    let q := recvTicks p.1 n
    (q.1, p.2 ++ q.2)

/-- Embedding of the wasm-path body of `recv_info`: the
`while let Some(m) = recv_queue.pop_front()` loop, which drains the whole
queue within the tick. -/
def drainQueue : List Msg → List LogEntry
  | [] => []
  | m :: rest => .receivedMsg m :: drainQueue rest

/-- Completion state of the background connect task wrapped by the
`WebSocketConnectionSetupTask` component. -/
inductive ConnResult
  | ok (ch : Channel)
  | err (e : ConnectionSetupError)
  deriving DecidableEq

/-- A `bevy` task as observed by `block_on(future::poll_once(..))`: still
pending, or completed with a result. -/
inductive TaskState
  | pending
  | done (r : ConnResult)
  deriving DecidableEq

/-- Embedding of `block_on(future::poll_once(&mut task.0))`: non-blocking,
`none` while the background work is outstanding. -/
def pollTask : TaskState → Option ConnResult
  | .pending => none
  | .done r => some r

/-- One connection-slot entity: it may carry the pending-task component
(`WebSocketConnectionSetupTask`) and the live-channel component
(`WebSocketClient`). -/
structure Slot where
  task : Option TaskState
  client : Option Channel
  deriving DecidableEq

/-- Log output of `handle_tasks` for one slot: a completed task with an `Err`
result is logged as `Connection failed with: ..`; everything else logs
nothing.  Note that the error arm only logs: no component is removed and no
entity is despawned. -/
def handleLog (s : Slot) : List LogEntry :=
  match s.task with
  | some t =>
    match pollTask t with
    | some (.err e) => [.connectionFailed e]
    | _ => []
  | none => []

/-- Log output of the `handle_tasks` system over all slot entities. -/
def handle_tasks (slots : List Slot) : List LogEntry :=
  (slots.map handleLog).flatten

/-- Deferred effect of the `CommandQueue` produced by a successfully completed
connect task, applied at the schedule's sync point: insert the
`WebSocketClient` component and remove the `WebSocketConnectionSetupTask`
component of that slot entity in one command application.  Slots whose task is
still pending or resolved with an error are untouched. -/
def applyInstall (s : Slot) : Slot :=
  match s.task with
  | some t =>
    match pollTask t with
    | some (.ok ch) => { task := none, client := some ch }
    | _ => s
  | none => s

/-- Embedding of `bevy::time::Timer` in `TimerMode::Repeating` as used by
`SendMessageConfig`: elapsed time and the configured interval, in abstract
time units. -/
structure Timer where
  elapsed : Nat
  duration : Nat
  deriving DecidableEq

/-- Embedding of `Timer::tick(delta)` followed by `Timer::finished()` for a
repeating timer: the accumulator advances by `delta`; when it reaches the
interval the timer reports finished for this tick and the accumulator wraps
modulo the interval. -/
def Timer.tickTimer (t : Timer) (delta : Nat) : Timer × Bool :=
  let e := t.elapsed + delta
  if t.duration ≤ e then ({ t with elapsed := e % t.duration }, true)
  else ({ t with elapsed := e }, false)

/-- Embedding of the `SendMessageConfig` resource. -/
structure SendMessageConfig where
  timer : Timer
  deriving DecidableEq

/-- One slot as updated by `send_info` when the timer fired: slots without a
client are untouched; for a slot with a client the per-channel send body
runs. -/
def sendSlot (data : List Transform) (s : Slot) : Slot × List LogEntry :=
  match s.client with
  | none => (s, [])
  | some c =>
    ({ s with client := some (sendClient data c).1 }, (sendClient data c).2)

/-- Embedding of the `send_info` system: tick the repeating timer with this
frame's delta; when it finished, log `Time to send data again...` and run the
send body once for every entity with a `WebSocketClient`. -/
def send_info (delta : Nat) (data : List Transform) (cfg : SendMessageConfig)
    (slots : List Slot) : SendMessageConfig × List Slot × List LogEntry :=
  let p := cfg.timer.tickTimer delta
  if p.2 then
    (⟨p.1⟩, slots.map (fun s => (sendSlot data s).1),
      .timeToSend :: (slots.map (fun s => (sendSlot data s).2)).flatten)
  else
    (⟨p.1⟩, slots, [])

/-- One slot as updated by `recv_info`: slots without a client are untouched;
for a slot with a client one read is performed. -/
def recvSlot (s : Slot) : Slot × List LogEntry :=
  match s.client with
  | none => (s, [])
  | some c =>
    ({ s with client := some (recvClientStep c).1 }, (recvClientStep c).2)

/-- Embedding of the `recv_info` system over all entities with a
`WebSocketClient` component. -/
def recv_info (slots : List Slot) : List Slot × List LogEntry :=
  (slots.map (fun s => (recvSlot s).1), (slots.map (fun s => (recvSlot s).2)).flatten)

/-- The slot entity freshly created by `setup_connection` for one
`SetupConnection` event on the native path: spawned empty, then the
`WebSocketConnectionSetupTask` component is inserted. -/
def newSlot : Slot :=
  { task := some .pending, client := none }

/-- The ECS state the embedding tracks: the slot entities and the
`SendMessageConfig` resource. -/
structure World where
  slots : List Slot
  config : SendMessageConfig
  deriving DecidableEq

/-- Input of one `Update` run: how many `SetupConnection` events fire, this
frame's time delta, and the transform snapshot the scene provides. -/
structure TickInput where
  triggers : Nat
  delta : Nat
  data : List Transform
  deriving DecidableEq

/-- One `Update` tick.  The pump systems (`send_info`, `recv_info`) query the
pre-tick component state because the installs of `handle_tasks` and the spawns
of `setup_connection` go through `Commands`, which Bevy applies at the
schedule's sync point; the embedding therefore applies them at the end of the
tick.  Log order follows the system registration order of `main`. -/
def tick (inp : TickInput) (w : World) : World × List LogEntry :=
  let sendRes := send_info inp.delta inp.data w.config w.slots
  let recvRes := recv_info sendRes.2.1
  ({ slots := recvRes.1.map applyInstall ++ List.replicate inp.triggers newSlot,
     config := sendRes.1 },
   List.replicate inp.triggers LogEntry.settingUp ++ handle_tasks w.slots
     ++ sendRes.2.2 ++ recvRes.2)

/-- Completion of the background connect work for slot `i` (performed on the
`AsyncComputeTaskPool` between ticks): a pending task becomes done with the
given result.  Anything else is left unchanged. -/
def resolveTask (i : Nat) (r : ConnResult) (slots : List Slot) : List Slot :=
  match slots[i]? with
  | some ⟨some .pending, c⟩ => slots.set i ⟨some (.done r), c⟩
  | _ => slots

/-- The observable events driving the system: an `Update` tick, or a
background task completing. -/
inductive Ev
  | tickEv (inp : TickInput)
  | resolveEv (i : Nat) (r : ConnResult)
  deriving DecidableEq

/-- One event step of the whole system. -/
def stepEv (w : World) : Ev → World
  | .tickEv inp => (tick inp w).1
  | .resolveEv i r => { w with slots := resolveTask i r w.slots }

/-- The initial state built in `main`: no slot entities, the
`SendMessageConfig` resource holding a fresh repeating timer with interval
`T`. -/
def initWorld (T : Nat) : World :=
  { slots := [], config := ⟨⟨0, T⟩⟩ }

/-- State after a sequence of events from the initial state. -/
def run (T : Nat) (evs : List Ev) : World :=
  evs.foldl stepEv (initWorld T)

/-- Iterated ticks, accumulating the produced log. -/
def runTicks : World → List TickInput → World × List LogEntry
  | w, [] => (w, [])
  | w, inp :: rest =>
    let p := tick inp w
    let q := runTicks p.1 rest
    (q.1, p.2 ++ q.2)

/-- Count of log entries satisfying a predicate. -/
def countIf (p : LogEntry → Bool) : List LogEntry → Nat
  | [] => 0
  | e :: rest => (if p e then 1 else 0) + countIf p rest

/-- Recognizer for the `Received message ..` log line. -/
def isReceivedLog : LogEntry → Bool
  | .receivedMsg _ => true
  | _ => false

/-- Recognizer for the `Sending data: ..` log line, one per send attempt. -/
def isSendAttemptLog : LogEntry → Bool
  | .sendingData _ => true
  | _ => false

/-- Number of received-message log entries. -/
def countReceived (lg : List LogEntry) : Nat :=
  countIf isReceivedLog lg

/-- Number of send attempts recorded in a log. -/
def countSendAttempts (lg : List LogEntry) : Nat :=
  countIf isSendAttemptLog lg

/-- Number of slots carrying a live channel. -/
def countLive : List Slot → Nat
  | [] => 0
  | s :: rest => (if s.client.isSome then 1 else 0) + countLive rest

/-- Sum of the time deltas of a sequence of tick inputs. -/
def sumDeltas : List TickInput → Nat
  | [] => 0
  | inp :: rest => inp.delta + sumDeltas rest

/-- Embedding of `tungstenite::stream::MaybeTlsStream` as matched by the
connect task in `setup_connection`. -/
inductive MaybeTlsStream
  | plain
  | rustls
  | nativeTls
  deriving DecidableEq

/-- Result of `connect(url)` inside the spawned task: the stream of the
established websocket, or a `tungstenite` error propagated by `?`. -/
inductive ConnectOutcome
  | ok (s : MaybeTlsStream)
  | err (e : WsError)
  deriving DecidableEq

/-- How the body of the spawned connect task terminates. -/
inductive TaskPath
  | okPath
  | errPath (e : ConnectionSetupError)
  | panicPath
  deriving DecidableEq

/-- Embedding of the body of the async block in `setup_connection` (native
path): propagate a `connect` failure as `ConnectionSetupError::WebSocket`;
on success match the stream, calling `set_nonblocking(true)` on `Plain` and
`Rustls` streams (propagating an IO failure as `ConnectionSetupError::Io`) and
hitting `todo!()` — a panic — on every other stream variant. -/
def connectTaskOutcome : ConnectOutcome → Option IoErrKind → TaskPath
  | .err e, _ => .errPath (.webSocketErr e)
  | .ok .plain, none => .okPath
  | .ok .plain, some k => .errPath (.ioErr k)
  | .ok .rustls, none => .okPath
  | .ok .rustls, some k => .errPath (.ioErr k)
  | .ok .nativeTls, _ => .panicPath

/-- Indexing into a mapped list. -/
theorem wsGetElemMap {α β : Type} (f : α → β) :
    ∀ (l : List α) (i : Nat), (l.map f)[i]? = (l[i]?).map f := by
  intro l
  induction l with
  | nil => intro i; cases i <;> simp
  | cons hd tl ih =>
    intro i
    cases i with
    | zero => simp
    | succ n => simp [ih n]

/-- Indexing into an append stays in the left part below its length. -/
theorem wsGetElemAppendLeft {α : Type} :
    ∀ (l1 l2 : List α) (i : Nat), i < l1.length → (l1 ++ l2)[i]? = l1[i]? := by
  intro l1
  induction l1 with
  | nil => intro l2 i h; simp at h
  | cons hd tl ih =>
    intro l2 i h
    cases i with
    | zero => simp
    | succ n => simpa using ih l2 n (by simpa using h)

/-- A successful index lookup bounds the index. -/
theorem wsLtLengthOfGetElem {α : Type} :
    ∀ (l : List α) (i : Nat) (a : α), l[i]? = some a → i < l.length := by
  intro l
  induction l with
  | nil => intro i a h; cases i <;> simp at h
  | cons hd tl ih =>
    intro i a h
    cases i with
    | zero => simp
    | succ n =>
      have := ih n a (by simpa using h)
      simpa using Nat.succ_lt_succ this

/-- A successful index lookup yields a member. -/
theorem wsMemOfGetElem {α : Type} :
    ∀ (l : List α) (i : Nat) (a : α), l[i]? = some a → a ∈ l := by
  intro l
  induction l with
  | nil => intro i a h; cases i <;> simp at h
  | cons hd tl ih =>
    intro i a h
    cases i with
    | zero => simp at h; simp [h]
    | succ n => exact List.mem_cons_of_mem hd (ih n a (by simpa using h))

/-- Members of a list after `set` are old members or the new element. -/
theorem wsMemSet {α : Type} :
    ∀ (l : List α) (i : Nat) (a x : α), x ∈ l.set i a → x ∈ l ∨ x = a := by
  intro l
  induction l with
  | nil => intro i a x h; simp at h
  | cons hd tl ih =>
    intro i a x h
    cases i with
    | zero =>
      rcases List.mem_cons.1 h with h1 | h1
      · right; exact h1
      · left; exact List.mem_cons_of_mem hd h1
    | succ n =>
      rcases List.mem_cons.1 h with h1 | h1
      · left; simp [h1]
      · rcases ih n a x h1 with h2 | h2
        · left; exact List.mem_cons_of_mem hd h2
        · right; exact h2

/-- An option whose `isSome` is false is `none`. -/
theorem wsEqNoneOfIsSomeFalse {α : Type} (o : Option α) (h : o.isSome = false) :
    o = none := by
  cases o with
  | none => rfl
  | some a => simp at h

/-- An option whose `isSome` is true is not `none`. -/
theorem wsNeNoneOfIsSomeTrue {α : Type} (o : Option α) (h : o.isSome = true) :
    o ≠ none := by
  cases o with
  | none => simp at h
  | some a => simp

/-- The slot produced by `send_info` keeps the task component. -/
theorem sendSlot_task (data : List Transform) (s : Slot) :
    ((sendSlot data s).1).task = s.task := by
  obtain ⟨t, c⟩ := s
  cases c <;> rfl

/-- The slot produced by `send_info` keeps whether a client is installed. -/
theorem sendSlot_clientSome (data : List Transform) (s : Slot) :
    ((sendSlot data s).1).client.isSome = s.client.isSome := by
  obtain ⟨t, c⟩ := s
  cases c <;> rfl

/-- The slot produced by `recv_info` keeps the task component. -/
theorem recvSlot_task (s : Slot) : ((recvSlot s).1).task = s.task := by
  obtain ⟨t, c⟩ := s
  cases c <;> rfl

/-- The slot produced by `recv_info` keeps whether a client is installed. -/
theorem recvSlot_clientSome (s : Slot) :
    ((recvSlot s).1).client.isSome = s.client.isSome := by
  obtain ⟨t, c⟩ := s
  cases c <;> rfl

/-- Command application never uninstalls a client. -/
theorem applyInstall_clientSome (s : Slot) (h : s.client.isSome = true) :
    (applyInstall s).client.isSome = true := by
  obtain ⟨t, c⟩ := s
  cases t with
  | none => exact h
  | some ts =>
    cases ts with
    | pending => exact h
    | done r =>
      cases r with
      | ok ch => rfl
      | err e => exact h

/-- The slots produced by `send_info` are the input slots (timer not finished)
or the input slots with the per-channel send body applied. -/
theorem send_info_slots (delta : Nat) (data : List Transform)
    (cfg : SendMessageConfig) (slots : List Slot) :
    (send_info delta data cfg slots).2.1 = slots ∨
    (send_info delta data cfg slots).2.1 = slots.map (fun s => (sendSlot data s).1) := by
  unfold send_info
  by_cases h : (cfg.timer.tickTimer delta).2 = true
  · right; simp [h]
  · left; simp [h]

/-- The resource produced by `send_info` holds the ticked timer. -/
theorem send_info_config (delta : Nat) (data : List Transform)
    (cfg : SendMessageConfig) (slots : List Slot) :
    (send_info delta data cfg slots).1 = ⟨(cfg.timer.tickTimer delta).1⟩ := by
  unfold send_info
  by_cases h : (cfg.timer.tickTimer delta).2 = true <;> simp [h]

/-- Indexing the slots produced by `recv_info`. -/
theorem recv_info_getElem (slots : List Slot) (i : Nat) :
    (recv_info slots).1[i]? = (slots[i]?).map (fun s => (recvSlot s).1) :=
  wsGetElemMap _ _ _

/-- Index-wise description of one tick: the slot at a live index is pumped
(receive, and send if the timer fired) against the pre-tick state and the
deferred commands are applied at the end. -/
theorem tick_getElem (inp : TickInput) (w : World) (i : Nat) (s : Slot)
    (h : w.slots[i]? = some s) :
    (tick inp w).1.slots[i]? = some (applyInstall (recvSlot s).1) ∨
    (tick inp w).1.slots[i]? = some (applyInstall (recvSlot (sendSlot inp.data s).1).1) := by
  have hi : i < w.slots.length := wsLtLengthOfGetElem _ _ _ h
  have hslots : (tick inp w).1.slots =
      ((recv_info (send_info inp.delta inp.data w.config w.slots).2.1).1.map applyInstall)
        ++ List.replicate inp.triggers newSlot := rfl
  rcases send_info_slots inp.delta inp.data w.config w.slots with h2 | h2
  · left
    rw [hslots, h2]
    have hlen : i < ((recv_info w.slots).1.map applyInstall).length := by
      simpa [recv_info] using hi
    rw [wsGetElemAppendLeft _ _ _ hlen, wsGetElemMap, recv_info_getElem, h]
    rfl
  · right
    rw [hslots, h2]
    have hlen : i <
        ((recv_info (w.slots.map (fun s => (sendSlot inp.data s).1))).1.map applyInstall).length := by
      simpa [recv_info] using hi
    rw [wsGetElemAppendLeft _ _ _ hlen, wsGetElemMap, recv_info_getElem, wsGetElemMap, h]
    rfl

/-- The component-level invariant tracked for every slot entity: never both a
pending task and a live channel, and never neither. -/
def SlotInv (s : Slot) : Prop :=
  (s.task.isSome = false ∨ s.client.isSome = false) ∧
  (s.task.isSome = true ∨ s.client.isSome = true)

/-- The invariant transfers along task-and-client-shape preservation. -/
theorem slotInv_of_shape {a b : Slot} (ht : b.task = a.task)
    (hc : b.client.isSome = a.client.isSome) (h : SlotInv a) : SlotInv b := by
  unfold SlotInv at h ⊢
  rw [ht, hc]
  exact h

/-- A freshly spawned slot satisfies the invariant. -/
theorem slotInv_newSlot : SlotInv newSlot :=
  ⟨Or.inr rfl, Or.inl rfl⟩

/-- Command application preserves the invariant. -/
theorem slotInv_applyInstall (s : Slot) (h : SlotInv s) : SlotInv (applyInstall s) := by
  obtain ⟨t, c⟩ := s
  cases t with
  | none => exact h
  | some ts =>
    cases ts with
    | pending => exact h
    | done r =>
      cases r with
      | ok ch => exact ⟨Or.inl rfl, Or.inr rfl⟩
      | err e => exact h

/-- Background task completion preserves the invariant on every slot. -/
theorem slotInv_resolve (i : Nat) (r : ConnResult) (slots : List Slot)
    (h : ∀ s ∈ slots, SlotInv s) : ∀ s ∈ resolveTask i r slots, SlotInv s := by
  intro s hs
  unfold resolveTask at hs
  cases hg : slots[i]? with
  | none => rw [hg] at hs; exact h s hs
  | some s0 =>
    rw [hg] at hs
    obtain ⟨t, c⟩ := s0
    cases t with
    | none => exact h s hs
    | some ts =>
      cases ts with
      | pending =>
        rcases wsMemSet _ _ _ _ hs with hmem | heq
        · exact h s hmem
        · subst heq
          have h0 := h ⟨some .pending, c⟩ (wsMemOfGetElem _ _ _ hg)
          refine ⟨?_, Or.inl rfl⟩
          rcases h0.1 with h1 | h1
          · simp at h1
          · exact Or.inr h1
      | done r2 => exact h s hs

/-- A tick preserves the invariant on every slot. -/
theorem slotInv_tick (inp : TickInput) (w : World)
    (h : ∀ s ∈ w.slots, SlotInv s) : ∀ s ∈ (tick inp w).1.slots, SlotInv s := by
  intro s hs
  have hslots : (tick inp w).1.slots =
      ((recv_info (send_info inp.delta inp.data w.config w.slots).2.1).1.map applyInstall)
        ++ List.replicate inp.triggers newSlot := rfl
  rw [hslots] at hs
  rcases List.mem_append.1 hs with hs | hs
  · rcases List.mem_map.1 hs with ⟨x, hx, rfl⟩
    have hx2 : x ∈ ((send_info inp.delta inp.data w.config w.slots).2.1).map
        (fun s => (recvSlot s).1) := by simpa [recv_info] using hx
    rcases List.mem_map.1 hx2 with ⟨y, hy, rfl⟩
    have hyInv : SlotInv y := by
      rcases send_info_slots inp.delta inp.data w.config w.slots with h2 | h2
      · rw [h2] at hy; exact h y hy
      · rw [h2] at hy
        rcases List.mem_map.1 hy with ⟨z, hz, rfl⟩
        exact slotInv_of_shape (sendSlot_task _ _) (sendSlot_clientSome _ _) (h z hz)
    exact slotInv_applyInstall _
      (slotInv_of_shape (recvSlot_task _) (recvSlot_clientSome _) hyInv)
  · rw [List.eq_of_mem_replicate hs]
    exact slotInv_newSlot

/-- Every event step preserves the invariant. -/
theorem slotInv_step (w : World) (ev : Ev) (h : ∀ s ∈ w.slots, SlotInv s) :
    ∀ s ∈ (stepEv w ev).slots, SlotInv s := by
  cases ev with
  | tickEv inp => exact slotInv_tick inp w h
  | resolveEv i r => exact slotInv_resolve i r w.slots h

/-- The invariant holds in every reachable state. -/
theorem slotInv_run (T : Nat) (evs : List Ev) : ∀ s ∈ (run T evs).slots, SlotInv s := by
  have hgen : ∀ (l : List Ev) (w : World), (∀ s ∈ w.slots, SlotInv s) →
      ∀ s ∈ (l.foldl stepEv w).slots, SlotInv s := by
    intro l
    induction l with
    | nil => intro w hw; exact hw
    | cons ev rest ih => intro w hw; exact ih (stepEv w ev) (slotInv_step w ev hw)
  apply hgen
  intro s hs
  exact absurd hs (List.not_mem_nil s)

/-- C1 counterexample: with two messages buffered on a live native channel a
tick's receive cycle logs one message, not two, and the immediately following
tick logs the second message rather than draining zero. -/
theorem recv_not_drained_in_one_tick :
    countReceived (tick ⟨0, 0, []⟩
        ⟨[⟨none, some ⟨[.msg [1], .msg [2]], [], []⟩⟩], ⟨⟨0, 1000⟩⟩⟩).2 = 1 ∧
    countReceived (tick ⟨0, 0, []⟩
        (tick ⟨0, 0, []⟩
          ⟨[⟨none, some ⟨[.msg [1], .msg [2]], [], []⟩⟩], ⟨⟨0, 1000⟩⟩⟩).1).2 = 1 := by
  decide

/-- C1 (amended): on the native path the receive cycle performs exactly one
`read` per live channel per tick, so a buffer of `n` messages is received one
per tick across `n` ticks (one log entry each), after which a further read
yields nothing; only the wasm path drains its whole queue within one tick. -/
theorem recv_one_message_per_tick (ms : List Msg) (sr : List (Option WsError))
    (ob : List Msg) :
    recvTicks ⟨ms.map InboundEvent.msg, sr, ob⟩ ms.length =
      (⟨[], sr, ob⟩, ms.map LogEntry.receivedMsg) ∧
    recvClientStep ⟨[], sr, ob⟩ = (⟨[], sr, ob⟩, []) ∧
    drainQueue ms = ms.map LogEntry.receivedMsg := by
  refine ⟨?_, rfl, ?_⟩
  · induction ms with
    | nil => rfl
    | cons m rest ih => simp [recvTicks, recvClientStep, Channel.read, ih]
  · induction ms with
    | nil => rfl
    | cons m rest ih => simp [drainQueue, ih]

/-- C2: a slot whose connection task resolved with an error is not removed by
`handle_tasks`: the tick logs the failure, but the slot entity still carries
its `WebSocketConnectionSetupTask` component afterwards (it will be polled
again next tick), and no channel is installed. -/
theorem failed_connection_slot_retained :
    tick ⟨0, 0, []⟩
        ⟨[⟨some (.done (.err (.ioErr (.otherErr 0)))), none⟩], ⟨⟨0, 1000⟩⟩⟩ =
      (⟨[⟨some (.done (.err (.ioErr (.otherErr 0)))), none⟩], ⟨⟨0, 1000⟩⟩⟩,
        [.connectionFailed (.ioErr (.otherErr 0))]) := by
  decide

/-- C3: a successfully resolved connection task is promoted by one atomic
command application — the tick installs exactly that channel on the slot and
removes the task component in the same update — and in every reachable state
every slot entity carries a task or a channel (never neither). -/
theorem successful_task_promotes_atomically :
    (∀ (w : World) (inp : TickInput) (i : Nat) (ch : Channel),
        w.slots[i]? = some ⟨some (.done (.ok ch)), none⟩ →
        (tick inp w).1.slots[i]? = some ⟨none, some ch⟩) ∧
    (∀ (T : Nat) (evs : List Ev) (s : Slot), s ∈ (run T evs).slots →
        s.task ≠ none ∨ s.client ≠ none) := by
  constructor
  · intro w inp i ch h
    rcases tick_getElem inp w i _ h with h2 | h2
    · rw [h2]; rfl
    · rw [h2]; rfl
  · intro T evs s hs
    rcases (slotInv_run T evs s hs).2 with h1 | h1
    · exact Or.inl (wsNeNoneOfIsSomeTrue _ h1)
    · exact Or.inr (wsNeNoneOfIsSomeTrue _ h1)

/-- Witness for C3 at concrete inputs. -/
theorem successful_task_promotes_atomically_witness :
    (tick ⟨0, 0, []⟩
        ⟨[⟨some (.done (.ok ⟨[], [], []⟩)), none⟩], ⟨⟨0, 1000⟩⟩⟩).1.slots[0]? =
      some ⟨none, some ⟨[], [], []⟩⟩ ∧
    ((⟨some .pending, none⟩ : Slot).task ≠ none ∨
      (⟨some .pending, none⟩ : Slot).client ≠ none) :=
  ⟨successful_task_promotes_atomically.1 _ ⟨0, 0, []⟩ 0 _ (by decide),
   successful_task_promotes_atomically.2 1000 [.tickEv ⟨1, 0, []⟩] _ (by decide)⟩

/-- C4: in every reachable state, no slot entity simultaneously carries a
pending `WebSocketConnectionSetupTask` and a live `WebSocketClient`. -/
theorem never_pending_and_live (T : Nat) (evs : List Ev) (s : Slot)
    (h : s ∈ (run T evs).slots) : s.task = none ∨ s.client = none := by
  rcases (slotInv_run T evs s h).1 with h1 | h1
  · exact Or.inl (wsEqNoneOfIsSomeFalse _ h1)
  · exact Or.inr (wsEqNoneOfIsSomeFalse _ h1)

/-- Witness for C4 at a concrete reachable state. -/
theorem never_pending_and_live_witness :
    (⟨some .pending, none⟩ : Slot).task = none ∨
    (⟨some .pending, none⟩ : Slot).client = none :=
  never_pending_and_live 1000 [.tickEv ⟨1, 0, []⟩] _ (by decide)

/-- C5: a would-block outcome of send or receive is silently ignored — no
warning, no failure, the cycle just moves on — while every non-would-block
transport error is the only thing reported. -/
theorem would_block_is_silent :
    (∀ (data : List Transform) (ib : List InboundEvent)
        (rest : List (Option WsError)) (ob : List Msg),
      sendClient data ⟨ib, some (.ioErr .wouldBlock) :: rest, ob⟩ =
        (⟨ib, rest, ob⟩, [.sendingData data])) ∧
    (∀ (sr : List (Option WsError)) (ob : List Msg),
      recvClientStep ⟨[], sr, ob⟩ = (⟨[], sr, ob⟩, [])) ∧
    (∀ (rest : List InboundEvent) (sr : List (Option WsError)) (ob : List Msg),
      recvClientStep ⟨.fault (.ioErr .wouldBlock) :: rest, sr, ob⟩ =
        (⟨rest, sr, ob⟩, [])) ∧
    (∀ (e : WsError), e ≠ .ioErr .wouldBlock →
      handleSendResult (some e) = [.sendWarn e] ∧
      (∀ (rest : List InboundEvent) (sr : List (Option WsError)) (ob : List Msg),
        recvClientStep ⟨.fault e :: rest, sr, ob⟩ = (⟨rest, sr, ob⟩, [.recvWarn e]))) := by
  refine ⟨fun data ib rest ob => rfl, fun sr ob => rfl, fun rest sr ob => rfl, ?_⟩
  intro e he
  cases e with
  | ioErr k =>
    cases k with
    | wouldBlock => exact absurd rfl he
    | otherErr n => exact ⟨rfl, fun rest sr ob => rfl⟩
  | protocolErr n => exact ⟨rfl, fun rest sr ob => rfl⟩

/-- Witness for C5 at a concrete non-would-block error. -/
theorem would_block_is_silent_witness :
    handleSendResult (some (.protocolErr 3)) = [.sendWarn (.protocolErr 3)] ∧
    recvClientStep ⟨[.fault (.protocolErr 3)], [], []⟩ =
      (⟨[], [], []⟩, [.recvWarn (.protocolErr 3)]) :=
  ⟨(would_block_is_silent.2.2.2 (.protocolErr 3) (by decide)).1,
   (would_block_is_silent.2.2.2 (.protocolErr 3) (by decide)).2 [] [] []⟩

/-- C7: a genuine (non-would-block) transport error during steady-state send
or receive is logged as a warning, the channel stays installed — no teardown
path exists, a tick never uninstalls a client — and the pump attempts the
channel again on every tick by construction. -/
theorem transport_error_keeps_channel :
    (∀ (e : WsError), e ≠ .ioErr .wouldBlock →
      (∀ (rest : List InboundEvent) (sr : List (Option WsError)) (ob : List Msg),
        recvSlot ⟨none, some ⟨.fault e :: rest, sr, ob⟩⟩ =
          (⟨none, some ⟨rest, sr, ob⟩⟩, [.recvWarn e])) ∧
      (∀ (data : List Transform) (ib : List InboundEvent)
          (rest : List (Option WsError)) (ob : List Msg),
        sendSlot data ⟨none, some ⟨ib, some e :: rest, ob⟩⟩ =
          (⟨none, some ⟨ib, rest, ob⟩⟩, [.sendingData data, .sendWarn e]))) ∧
    (∀ (t : Option TaskState) (c : Channel),
        recvSlot ⟨t, some c⟩ =
          (⟨t, some (recvClientStep c).1⟩, (recvClientStep c).2)) ∧
    (∀ (w : World) (inp : TickInput) (i : Nat) (t : Option TaskState) (c : Channel),
        w.slots[i]? = some ⟨t, some c⟩ →
        ∃ p : Slot, (tick inp w).1.slots[i]? = some p ∧ p.client.isSome = true) := by
  refine ⟨?_, fun t c => rfl, ?_⟩
  · intro e he
    cases e with
    | ioErr k =>
      cases k with
      | wouldBlock => exact absurd rfl he
      | otherErr n => exact ⟨fun rest sr ob => rfl, fun data ib rest ob => rfl⟩
    | protocolErr n => exact ⟨fun rest sr ob => rfl, fun data ib rest ob => rfl⟩
  · intro w inp i t c h
    rcases tick_getElem inp w i _ h with h2 | h2
    · refine ⟨_, h2, applyInstall_clientSome _ ?_⟩
      rw [recvSlot_clientSome]
      rfl
    · refine ⟨_, h2, applyInstall_clientSome _ ?_⟩
      rw [recvSlot_clientSome, sendSlot_clientSome]
      rfl

/-- Witness for C7 at concrete inputs. -/
theorem transport_error_keeps_channel_witness :
    recvSlot ⟨none, some ⟨[.fault (.protocolErr 7)], [], []⟩⟩ =
      (⟨none, some ⟨[], [], []⟩⟩, [.recvWarn (.protocolErr 7)]) ∧
    (∃ p : Slot,
      (tick ⟨0, 0, []⟩ ⟨[⟨none, some ⟨[], [], []⟩⟩], ⟨⟨0, 1000⟩⟩⟩).1.slots[0]? = some p ∧
      p.client.isSome = true) :=
  ⟨(transport_error_keeps_channel.1 (.protocolErr 7) (by decide)).1 [] [] [],
   transport_error_keeps_channel.2.2 _ ⟨0, 0, []⟩ 0 none ⟨[], [], []⟩ (by decide)⟩

/-- C8: polling a still-pending task yields nothing, produces no log output,
and the tick leaves the task's slot entirely unchanged — polling every tick is
side-effect free while the background work is outstanding, and the embedding
is total, so no panic is possible on this path. -/
theorem poll_none_leaves_slot_unchanged :
    pollTask .pending = none ∧
    (∀ (c : Option Channel), handleLog ⟨some .pending, c⟩ = [] ∧
        applyInstall ⟨some .pending, c⟩ = ⟨some .pending, c⟩) ∧
    (∀ (w : World) (inp : TickInput) (i : Nat),
        w.slots[i]? = some ⟨some .pending, none⟩ →
        (tick inp w).1.slots[i]? = some ⟨some .pending, none⟩) := by
  refine ⟨rfl, fun c => ⟨rfl, rfl⟩, fun w inp i h => ?_⟩
  rcases tick_getElem inp w i _ h with h2 | h2
  · rw [h2]; rfl
  · rw [h2]; rfl

/-- Witness for C8 at a concrete state. -/
theorem poll_none_leaves_slot_unchanged_witness :
    (tick ⟨0, 0, []⟩ ⟨[⟨some .pending, none⟩], ⟨⟨0, 1000⟩⟩⟩).1.slots[0]? =
      some ⟨some .pending, none⟩ :=
  poll_none_leaves_slot_unchanged.2.2 _ ⟨0, 0, []⟩ 0 (by decide)

/-- C9 counterexample: promotion is applied at the end of the tick whose poll
succeeded, so that tick performs no pump operation on the new channel (zero
receive logs although a message is buffered); the channel's first availability
to the pump is the following tick — not the same tick as the promotion. -/
theorem promotion_tick_has_no_pump_op :
    countReceived (tick ⟨0, 0, []⟩
        ⟨[⟨some (.done (.ok ⟨[.msg [7]], [], []⟩)), none⟩], ⟨⟨0, 1000⟩⟩⟩).2 = 0 ∧
    (tick ⟨0, 0, []⟩
        ⟨[⟨some (.done (.ok ⟨[.msg [7]], [], []⟩)), none⟩], ⟨⟨0, 1000⟩⟩⟩).1.slots =
      [⟨none, some ⟨[.msg [7]], [], []⟩⟩] ∧
    countReceived (tick ⟨0, 0, []⟩
        (tick ⟨0, 0, []⟩
          ⟨[⟨some (.done (.ok ⟨[.msg [7]], [], []⟩)), none⟩], ⟨⟨0, 1000⟩⟩⟩).1).2 = 1 := by
  decide

/-- C9 (amended): promotion strictly precedes every pump operation on the
channel — the pump never touches a slot without an installed client, and the
tick that promotes a completed task delivers the channel to the end-of-tick
command application untouched by that tick's pump, so the channel's first
availability to the pump is a strictly later tick. -/
theorem promotion_strictly_precedes_pump :
    (∀ (data : List Transform) (s : Slot), s.client = none →
        sendSlot data s = (s, []) ∧ recvSlot s = (s, [])) ∧
    (∀ (w : World) (inp : TickInput) (i : Nat) (ch : Channel),
        w.slots[i]? = some ⟨some (.done (.ok ch)), none⟩ →
        (tick inp w).1.slots[i]? = some ⟨none, some ch⟩) := by
  constructor
  · intro data s h
    obtain ⟨t, c⟩ := s
    cases c with
    | none => exact ⟨rfl, rfl⟩
    | some ch => simp at h
  · intro w inp i ch h
    rcases tick_getElem inp w i _ h with h2 | h2
    · rw [h2]; rfl
    · rw [h2]; rfl

/-- Witness for C9 at concrete inputs. -/
theorem promotion_strictly_precedes_pump_witness :
    (sendSlot [] ⟨some .pending, none⟩ = (⟨some .pending, none⟩, []) ∧
      recvSlot ⟨some .pending, none⟩ = (⟨some .pending, none⟩, [])) ∧
    (tick ⟨0, 0, []⟩
        ⟨[⟨some (.done (.ok ⟨[], [], []⟩)), none⟩], ⟨⟨0, 1000⟩⟩⟩).1.slots[0]? =
      some ⟨none, some ⟨[], [], []⟩⟩ :=
  ⟨promotion_strictly_precedes_pump.1 [] ⟨some .pending, none⟩ rfl,
   promotion_strictly_precedes_pump.2 _ ⟨0, 0, []⟩ 0 _ (by decide)⟩

/-- C10: on the native path the connect task panics via `todo!()` exactly when
the handshake succeeded with a stream that is neither `Plain` nor `Rustls`,
and the `Err(ConnectionError)` outcome after a successful handshake is only
reachable for `Plain` or `Rustls` streams. -/
theorem non_plain_rustls_stream_panics (s : MaybeTlsStream) (nb : Option IoErrKind) :
    (connectTaskOutcome (.ok s) nb = .panicPath ↔ (s ≠ .plain ∧ s ≠ .rustls)) ∧
    (∀ e, connectTaskOutcome (.ok s) nb = .errPath e → s = .plain ∨ s = .rustls) := by
  cases s with
  | plain =>
    cases nb with
    | none =>
      exact ⟨⟨fun h => (nomatch h), fun h => absurd rfl h.1⟩, fun e h => Or.inl rfl⟩
    | some k =>
      exact ⟨⟨fun h => (nomatch h), fun h => absurd rfl h.1⟩, fun e h => Or.inl rfl⟩
  | rustls =>
    cases nb with
    | none =>
      exact ⟨⟨fun h => (nomatch h), fun h => absurd rfl h.2⟩, fun e h => Or.inr rfl⟩
    | some k =>
      exact ⟨⟨fun h => (nomatch h), fun h => absurd rfl h.2⟩, fun e h => Or.inr rfl⟩
  | nativeTls =>
    cases nb with
    | none =>
      exact ⟨⟨fun _ => ⟨fun h => (nomatch h), fun h => nomatch h⟩, fun _ => rfl⟩,
        fun e h => nomatch h⟩
    | some k =>
      exact ⟨⟨fun _ => ⟨fun h => (nomatch h), fun h => nomatch h⟩, fun _ => rfl⟩,
        fun e h => nomatch h⟩

/-- Witness for C10 at a concrete stream variant. -/
theorem non_plain_rustls_stream_panics_witness :
    connectTaskOutcome (.ok .nativeTls) none = .panicPath :=
  (non_plain_rustls_stream_panics .nativeTls none).1.mpr (by decide)

/-- Counting distributes over appended logs. -/
theorem countIf_append (p : LogEntry → Bool) (l1 l2 : List LogEntry) :
    countIf p (l1 ++ l2) = countIf p l1 + countIf p l2 := by
  induction l1 with
  | nil => simp [countIf]
  | cons e rest ih => simp [countIf, ih, Nat.add_assoc]

/-- The replicated `Setting up connection!` lines are not send attempts. -/
theorem countIf_replicate_settingUp (p : LogEntry → Bool) (h : p .settingUp = false) :
    ∀ n : Nat, countIf p (List.replicate n .settingUp) = 0 := by
  intro n
  induction n with
  | zero => rfl
  | succ k ih => simp [List.replicate, countIf, h, ih]

/-- The per-slot `handle_tasks` log contains no send attempts. -/
theorem countSendAttempts_handleLog (s : Slot) :
    countIf isSendAttemptLog (handleLog s) = 0 := by
  obtain ⟨t, c⟩ := s
  cases t with
  | none => rfl
  | some ts =>
    cases ts with
    | pending => rfl
    | done r =>
      cases r with
      | ok ch => rfl
      | err e => rfl

/-- The `handle_tasks` log contains no send attempts. -/
theorem countSendAttempts_handle (slots : List Slot) :
    countIf isSendAttemptLog (handle_tasks slots) = 0 := by
  induction slots with
  | nil => rfl
  | cons s rest ih =>
    have hsplit : handle_tasks (s :: rest) = handleLog s ++ handle_tasks rest := rfl
    rw [hsplit, countIf_append, countSendAttempts_handleLog, ih]

/-- A receive step never logs a send attempt. -/
theorem countSendAttempts_recvClientStep (c : Channel) :
    countIf isSendAttemptLog (recvClientStep c).2 = 0 := by
  obtain ⟨ib, sr, ob⟩ := c
  cases ib with
  | nil => rfl
  | cons hd rest =>
    cases hd with
    | msg m => rfl
    | fault e =>
      cases e with
      | ioErr k =>
        cases k with
        | wouldBlock => rfl
        | otherErr n => rfl
      | protocolErr n => rfl

/-- A per-slot receive never logs a send attempt. -/
theorem countSendAttempts_recvSlot (s : Slot) :
    countIf isSendAttemptLog (recvSlot s).2 = 0 := by
  obtain ⟨t, c⟩ := s
  cases c with
  | none => rfl
  | some ch => exact countSendAttempts_recvClientStep ch

/-- The `recv_info` log contains no send attempts. -/
theorem countSendAttempts_recv (slots : List Slot) :
    countIf isSendAttemptLog (recv_info slots).2 = 0 := by
  induction slots with
  | nil => rfl
  | cons s rest ih =>
    have hsplit : (recv_info (s :: rest)).2 = (recvSlot s).2 ++ (recv_info rest).2 := rfl
    rw [hsplit, countIf_append, countSendAttempts_recvSlot, ih]

/-- The send-result handler never logs a further send attempt. -/
theorem countSendAttempts_handleSendResult (r : Option WsError) :
    countIf isSendAttemptLog (handleSendResult r) = 0 := by
  cases r with
  | none => rfl
  | some e =>
    cases e with
    | ioErr k =>
      cases k with
      | wouldBlock => rfl
      | otherErr n => rfl
    | protocolErr n => rfl

/-- A fired send cycle logs exactly one send attempt for a slot with a live
channel and none for a slot without one. -/
theorem countSendAttempts_sendSlot (data : List Transform) (s : Slot) :
    countIf isSendAttemptLog (sendSlot data s).2 =
      if s.client.isSome then 1 else 0 := by
  obtain ⟨t, c⟩ := s
  cases c with
  | none => rfl
  | some ch =>
    have hsplit : (sendSlot data ⟨t, some ch⟩).2 =
        .sendingData data :: handleSendResult (ch.send (serializeTransforms data)).1 := rfl
    rw [hsplit]
    simp [countIf, isSendAttemptLog, countSendAttempts_handleSendResult]

/-- A fired send cycle logs exactly one send attempt per live channel. -/
theorem countSendAttempts_sendJoin (data : List Transform) (slots : List Slot) :
    countIf isSendAttemptLog ((slots.map (fun s => (sendSlot data s).2)).flatten) =
      countLive slots := by
  induction slots with
  | nil => rfl
  | cons s rest ih =>
    have hsplit : ((s :: rest).map (fun s => (sendSlot data s).2)).flatten =
        (sendSlot data s).2 ++ ((rest.map (fun s => (sendSlot data s).2)).flatten) := rfl
    rw [hsplit, countIf_append, countSendAttempts_sendSlot, ih]
    rfl

/-- A repeating timer that reaches its interval fires and wraps modulo the
interval. -/
theorem tickTimer_fires (a T d : Nat) (h : T ≤ a + d) :
    Timer.tickTimer ⟨a, T⟩ d = (⟨(a + d) % T, T⟩, true) := by
  unfold Timer.tickTimer
  simp [h]

/-- A repeating timer short of its interval accumulates and does not fire. -/
theorem tickTimer_not_fires (a T d : Nat) (h : a + d < T) :
    Timer.tickTimer ⟨a, T⟩ d = (⟨a + d, T⟩, false) := by
  unfold Timer.tickTimer
  simp [Nat.not_le.2 h]

/-- The log of one tick, split by system. -/
theorem tick_logs (inp : TickInput) (w : World) :
    (tick inp w).2 =
      List.replicate inp.triggers LogEntry.settingUp ++ handle_tasks w.slots
        ++ (send_info inp.delta inp.data w.config w.slots).2.2
        ++ (recv_info (send_info inp.delta inp.data w.config w.slots).2.1).2 := rfl

/-- C6: send-cycle rate limiting with the repeating one-interval timer: ticks
whose deltas keep the accumulator below the interval `T` produce zero send
attempts while the accumulator tracks the elapsed sum; on a tick where the
accumulated time reaches `T`, exactly one send attempt per live channel occurs
and the accumulator resets, wrapping modulo the interval (hence below `T`). -/
theorem send_rate_limited :
    (∀ (inps : List TickInput) (slots : List Slot) (a T : Nat),
        a + sumDeltas inps < T →
        countSendAttempts (runTicks ⟨slots, ⟨⟨a, T⟩⟩⟩ inps).2 = 0 ∧
        (runTicks ⟨slots, ⟨⟨a, T⟩⟩⟩ inps).1.config = ⟨⟨a + sumDeltas inps, T⟩⟩) ∧
    (∀ (slots : List Slot) (a T : Nat) (inp : TickInput),
        0 < T → T ≤ a + inp.delta →
        countSendAttempts (tick inp ⟨slots, ⟨⟨a, T⟩⟩⟩).2 = countLive slots ∧
        (tick inp ⟨slots, ⟨⟨a, T⟩⟩⟩).1.config = ⟨⟨(a + inp.delta) % T, T⟩⟩ ∧
        (a + inp.delta) % T < T) := by
  constructor
  · intro inps
    induction inps with
    | nil =>
      intro slots a T h
      exact ⟨rfl, by simp [runTicks, sumDeltas]⟩
    | cons inp rest ih =>
      intro slots a T h
      have hsum0 : sumDeltas (inp :: rest) = inp.delta + sumDeltas rest := rfl
      have h2 := h
      rw [hsum0] at h2
      have hd : a + inp.delta < T := by omega
      have hnf := tickTimer_not_fires a T inp.delta hd
      have hsend1 : (send_info inp.delta inp.data (⟨⟨a, T⟩⟩ : SendMessageConfig) slots).2.1
          = slots := by
        simp [send_info, hnf]
      have hsend2 : (send_info inp.delta inp.data (⟨⟨a, T⟩⟩ : SendMessageConfig) slots).2.2
          = [] := by
        simp [send_info, hnf]
      have hcfg : (send_info inp.delta inp.data (⟨⟨a, T⟩⟩ : SendMessageConfig) slots).1
          = ⟨⟨a + inp.delta, T⟩⟩ := by
        simp [send_info, hnf]
      have hw : (tick inp ⟨slots, ⟨⟨a, T⟩⟩⟩).1 =
          ⟨(recv_info slots).1.map applyInstall ++ List.replicate inp.triggers newSlot,
            ⟨⟨a + inp.delta, T⟩⟩⟩ := by
        simp [tick, hsend1, hcfg]
      have hcount : countSendAttempts (tick inp ⟨slots, ⟨⟨a, T⟩⟩⟩).2 = 0 := by
        unfold countSendAttempts
        rw [tick_logs, countIf_append, countIf_append, countIf_append]
        rw [countIf_replicate_settingUp _ rfl, countSendAttempts_handle]
        rw [hsend2, hsend1, countSendAttempts_recv]
        rfl
      have hlt : (a + inp.delta) + sumDeltas rest < T := by omega
      have hrest := ih ((recv_info slots).1.map applyInstall
          ++ List.replicate inp.triggers newSlot) (a + inp.delta) T hlt
      have hsplit : runTicks ⟨slots, ⟨⟨a, T⟩⟩⟩ (inp :: rest) =
          ((runTicks (tick inp ⟨slots, ⟨⟨a, T⟩⟩⟩).1 rest).1,
            (tick inp ⟨slots, ⟨⟨a, T⟩⟩⟩).2
              ++ (runTicks (tick inp ⟨slots, ⟨⟨a, T⟩⟩⟩).1 rest).2) := rfl
      constructor
      · unfold countSendAttempts at hcount hrest ⊢
        rw [hsplit]
        rw [countIf_append, hcount, hw, hrest.1]
      · rw [hsplit]
        have hcfg2 := hrest.2
        rw [hw] at *
        rw [hcfg2]
        have hsum : a + inp.delta + sumDeltas rest = a + sumDeltas (inp :: rest) := by
          rw [hsum0]
          omega
        rw [hsum]
  · intro slots a T inp hT h
    have hf := tickTimer_fires a T inp.delta h
    have hsend1 : (send_info inp.delta inp.data (⟨⟨a, T⟩⟩ : SendMessageConfig) slots).2.1
        = slots.map (fun s => (sendSlot inp.data s).1) := by
      simp [send_info, hf]
    have hsend2 : (send_info inp.delta inp.data (⟨⟨a, T⟩⟩ : SendMessageConfig) slots).2.2
        = .timeToSend :: (slots.map (fun s => (sendSlot inp.data s).2)).flatten := by
      simp [send_info, hf]
    have hcfg : (send_info inp.delta inp.data (⟨⟨a, T⟩⟩ : SendMessageConfig) slots).1
        = ⟨⟨(a + inp.delta) % T, T⟩⟩ := by
      simp [send_info, hf]
    refine ⟨?_, ?_, Nat.mod_lt _ hT⟩
    · unfold countSendAttempts
      rw [tick_logs, countIf_append, countIf_append, countIf_append]
      rw [countIf_replicate_settingUp _ rfl, countSendAttempts_handle]
      rw [hsend2, hsend1, countSendAttempts_recv]
      have hts : countIf isSendAttemptLog
          (.timeToSend :: (slots.map (fun s => (sendSlot inp.data s).2)).flatten) =
          countIf isSendAttemptLog ((slots.map (fun s => (sendSlot inp.data s).2)).flatten) := by
        simp [countIf, isSendAttemptLog]
      rw [hts, countSendAttempts_sendJoin]
      omega
    · have hcfg0 : (tick inp ⟨slots, ⟨⟨a, T⟩⟩⟩).1.config =
          (send_info inp.delta inp.data (⟨⟨a, T⟩⟩ : SendMessageConfig) slots).1 := rfl
      rw [hcfg0, hcfg]

/-- Witness for C6 at concrete tick sequences. -/
theorem send_rate_limited_witness :
    countSendAttempts (runTicks ⟨[], ⟨⟨0, 1000⟩⟩⟩ [⟨0, 300, []⟩, ⟨0, 400, []⟩]).2 = 0 ∧
    countSendAttempts (tick ⟨0, 700, [5]⟩
        ⟨[⟨none, some ⟨[], [], []⟩⟩], ⟨⟨500, 1000⟩⟩⟩).2 =
      countLive [⟨none, some ⟨[], [], []⟩⟩] :=
  ⟨(send_rate_limited.1 [⟨0, 300, []⟩, ⟨0, 400, []⟩] [] 0 1000 (by decide)).1,
   (send_rate_limited.2 [⟨none, some ⟨[], [], []⟩⟩] 500 1000 ⟨0, 700, [5]⟩
      (by decide) (by decide)).1⟩

end WsDemo
